import Mathlib

/-!
# Wiring interrupt registry (`wiring/src/spark_wiring_interrupts.cpp`)

A shallow embedding of the interrupt attach/detach wrappers.  The file-scope
table `handlers[16]`, the C++ heap holding the `wiring_interrupt_handler_t`
copies, and the hardware abstraction layer are made explicit in a `State`
record that every operation threads through.  Each primitive effect (a HAL
call, a `delete`, a `new`, a store into the table) is also appended to a
trace, in program order, so that ordering properties can be stated.

Conventions:
* pointers are natural numbers, `0` is `NULL`, and the `k`-th object ever
  allocated lives at address `k` (addresses identify allocations and are never
  handed out twice);
* a heap cell remembers how many times it was destroyed, so releasing an
  object twice is visible as a count of `2` instead of being undefined;
* the outcome of `new` is an input of the operations (`allocOk`);
* indexing `handlers` outside `0..15` is a `Fault`.
-/

namespace WiringInterrupts

/-! ## Data model -/

/-- Trigger condition, an enumeration value that is only passed through. -/
abbrev InterruptMode := Nat

/-- Identity of the callable held by a `wiring_interrupt_handler_t`; copying
the object keeps the identity. -/
abbrev Callback := Nat

/-- Address of a plain function, `raw_interrupt_handler_t`. -/
abbrev RawHandler := Nat

/-- Untyped pointer, `0` is `NULL`. -/
abbrev Ptr := Nat

/-- The two fixed entry points handed to the hardware layer. -/
inductive Trampoline where
  | call_wiring_interrupt_handler
  | call_raw_interrupt_handler
deriving DecidableEq, Repr

/-- One heap object of type `wiring_interrupt_handler_t`: the callable it
copies and the number of times `delete` ran on it. -/
structure Cell where
  fn : Callback
  destroyed : Nat
deriving DecidableEq, Repr

/-- What the hardware layer remembers for an armed pin: the arguments of
`HAL_Interrupts_Attach`. -/
structure Binding where
  trampoline : Trampoline
  data : Ptr
  mode : InterruptMode
deriving DecidableEq, Repr

/-- The record `HAL_InterruptCallback`: a trampoline and its context. -/
structure HAL_InterruptCallback where
  handler : Trampoline
  data : Ptr
deriving DecidableEq, Repr

/-- Primitive effects, recorded in program order. -/
inductive Effect where
  | halDetach (pin : Nat)
  | halAttach (pin : Nat) (t : Trampoline) (data : Ptr) (mode : InterruptMode)
  | halDisableAll
  | halEnableAll
  | halSetSystem (irq : Nat) (cb : Option HAL_InterruptCallback)
  | opDelete (p : Ptr)
  | opNew (fn : Callback) (p : Ptr)
  | store (pin : Nat) (p : Ptr)
  | invoke (fn : Callback)
  | invokeRaw (h : RawHandler)
deriving DecidableEq, Repr

/-- Undefined behaviour made explicit. -/
inductive Fault where
  | tableIndexOutOfRange (pin : Nat)
  | useAfterFree (p : Ptr)
  | badPointer (p : Ptr)
deriving DecidableEq, Repr

/-- Build configuration: the value of the preprocessor symbol `Wiring_Cellular` and the pin
number behind the name `D7`. -/
structure Config where
  Wiring_Cellular : Nat
  D7 : Nat
deriving DecidableEq, Repr

/-- The whole mutable world: `handlers[16]`, the heap, and the hardware layer
(armed pins, global gate, system interrupt table), plus the effect trace. -/
structure State where
  handlers : Fin 16 → Ptr
  heap : List Cell
  armed : Nat → Option Binding
  gate : Bool
  system : Nat → Option HAL_InterruptCallback
  trace : List Effect

/-- Start of the program: zero-initialised table, empty heap, nothing armed. -/
def State.init : State where
  handlers := fun _ => 0
  heap := []
  armed := fun _ => none
  gate := true
  system := fun _ => none
  trace := []

/-! ## Heap -/

/-- Bump the destruction count of the cell at list position `i`. -/
def destroyAt : Nat → List Cell → List Cell
  | _, [] => []
  | 0, c :: cs => { c with destroyed := c.destroyed + 1 } :: cs
  | i + 1, c :: cs => c :: destroyAt i cs

/-- Heap after `delete p`: nothing for `NULL`, otherwise the object at `p` is
destroyed once more (a pointer past the end of the heap has no object to
destroy). -/
def release (p : Ptr) (heap : List Cell) : List Cell :=
  if p = 0 then heap else destroyAt (p - 1) heap

/-- The object stored at address `p`, if `p` was ever allocated. -/
def cellAt (heap : List Cell) (p : Ptr) : Option Cell :=
  if p = 0 then none else heap[p - 1]?

/-- Address `p` holds an object that was never destroyed. -/
def isLive (heap : List Cell) (p : Ptr) : Bool :=
  match cellAt heap p with
  | some c => c.destroyed == 0
  | none => false

/-- Number of objects on the heap that were never destroyed. -/
def liveCount (heap : List Cell) : Nat :=
  (heap.filter (fun c => c.destroyed == 0)).length

/-- The statement `delete p;`. -/
def opDelete (p : Ptr) (st : State) : State :=
  { st with heap := release p st.heap, trace := st.trace ++ [Effect.opDelete p] }

/-- The expression `new wiring_interrupt_handler_t(fn)`: on success a fresh
cell holding a copy of `fn`, on failure `NULL` and an untouched heap. -/
def opNew (allocOk : Bool) (fn : Callback) (st : State) : Ptr × State :=
  if allocOk then
    (st.heap.length + 1,
      { st with heap := st.heap ++ [{ fn := fn, destroyed := 0 }],
                trace := st.trace ++ [Effect.opNew fn (st.heap.length + 1)] })
  else
    (0, { st with trace := st.trace ++ [Effect.opNew fn 0] })

/-! ## Hardware abstraction layer -/

/-- Modelled from the spec: `hal_detach(source)` of the external hardware
interrupt controller (its implementation is not part of this file); a
recording fake that unarms the pin. -/
def HAL_Interrupts_Detach (pin : Nat) (st : State) : State :=
  { st with armed := Function.update st.armed pin none,
            trace := st.trace ++ [Effect.halDetach pin] }

/-- Modelled from the spec: `hal_attach(source, trampoline, opaque_context,
mode, reservedExtra)` of the external hardware interrupt controller; a
recording fake that arms the pin with the given trampoline and context. -/
def HAL_Interrupts_Attach (pin : Nat) (t : Trampoline) (data : Ptr)
    (mode : InterruptMode) (st : State) : State :=
  { st with armed := Function.update st.armed pin
                       (some { trampoline := t, data := data, mode := mode }),
            trace := st.trace ++ [Effect.halAttach pin t data mode] }

/-- Modelled from the spec: `hal_disable_all()`, closing the global gate. -/
def HAL_Interrupts_Disable_All (st : State) : State :=
  { st with gate := false, trace := st.trace ++ [Effect.halDisableAll] }

/-- Modelled from the spec: `hal_enable_all()`, opening the global gate. -/
def HAL_Interrupts_Enable_All (st : State) : State :=
  { st with gate := true, trace := st.trace ++ [Effect.halEnableAll] }

/-- Modelled from the spec: `hal_set_system_handler(irq, trampoline,
opaque_context, reservedExtra) -> bool`; a recording fake that copies the
record into the table of system handlers (or clears the entry for `NULL`) and
reports success.  The context is only stored: the heap is not touched. -/
def HAL_Set_System_Interrupt_Handler (irq : Nat)
    (callback : Option HAL_InterruptCallback) (st : State) : Bool × State :=
  (true, { st with system := Function.update st.system irq callback,
                   trace := st.trace ++ [Effect.halSetSystem irq callback] })

/-! ## The translated functions -/

/-- The guard `#if Wiring_Cellular == 1 ... if (pin == D7)`. -/
def reserved (cfg : Config) (pin : Nat) : Bool :=
  cfg.Wiring_Cellular == 1 && pin == cfg.D7

/-- Source function `allocate_handler(pin, fn)`: `delete handlers[pin];` then
`return handlers[pin] = new wiring_interrupt_handler_t(fn);`. -/
def allocate_handler (allocOk : Bool) (pin : Nat) (fn : Callback) (st : State) :
    Except Fault (Ptr × State) :=
  if h : pin < 16 then
    let st1 := opDelete (st.handlers ⟨pin, h⟩) st
    let r := opNew allocOk fn st1
    Except.ok (r.1,
      { r.2 with handlers := Function.update r.2.handlers ⟨pin, h⟩ r.1,
                 trace := r.2.trace ++ [Effect.store pin r.1] })
  else
    Except.error (Fault.tableIndexOutOfRange pin)

/-- Trampoline `call_wiring_interrupt_handler(data)`: cast the context to a handler
object and call it. -/
def call_wiring_interrupt_handler (data : Ptr) (st : State) : Except Fault State :=
  match cellAt st.heap data with
  | some c =>
    if c.destroyed = 0 then
      Except.ok { st with trace := st.trace ++ [Effect.invoke c.fn] }
    else
      Except.error (Fault.useAfterFree data)
  | none => Except.error (Fault.badPointer data)

/-- Trampoline `call_raw_interrupt_handler(data)`: cast the context to a function and
call it. -/
def call_raw_interrupt_handler (data : Ptr) (st : State) : Except Fault State :=
  Except.ok { st with trace := st.trace ++ [Effect.invokeRaw data] }

/-- Source function `attachInterrupt(pin, fn, mode)`, the overload taking a
`wiring_interrupt_handler_t`. -/
def attachInterrupt (cfg : Config) (allocOk : Bool) (pin : Nat) (fn : Callback)
    (mode : InterruptMode) (st : State) : Except Fault (Bool × State) :=
  if reserved cfg pin then Except.ok (false, st)
  else
    let st1 := HAL_Interrupts_Detach pin st
    match allocate_handler allocOk pin fn st1 with
    | Except.error e => Except.error e
    | Except.ok (handler, st2) =>
      let st3 :=
        if handler ≠ 0 then
          HAL_Interrupts_Attach pin Trampoline.call_wiring_interrupt_handler handler mode st2
        else st2
      Except.ok (handler != 0, st3)

/-- Source function `attachInterrupt(pin, handler, mode)`, the overload taking a
`raw_interrupt_handler_t`. -/
def attachInterruptRaw (cfg : Config) (pin : Nat) (handler : RawHandler)
    (mode : InterruptMode) (st : State) : Bool × State :=
  if reserved cfg pin then (false, st)
  else
    let st1 := HAL_Interrupts_Detach pin st
    let st2 := HAL_Interrupts_Attach pin Trampoline.call_raw_interrupt_handler handler mode st1
    (true, st2)

/-- Source function `detachInterrupt(pin)`. -/
def detachInterrupt (cfg : Config) (pin : Nat) (st : State) : Except Fault State :=
  if reserved cfg pin then Except.ok st
  else
    let st1 := HAL_Interrupts_Detach pin st
    if h : pin < 16 then
      let st2 := opDelete (st1.handlers ⟨pin, h⟩) st1
      Except.ok { st2 with handlers := Function.update st2.handlers ⟨pin, h⟩ 0,
                           trace := st2.trace ++ [Effect.store pin 0] }
    else
      Except.error (Fault.tableIndexOutOfRange pin)

/-- Source function `noInterrupts()`. -/
def noInterrupts (st : State) : State :=
  HAL_Interrupts_Disable_All st

/-- Source function `interrupts()`. -/
def interrupts (st : State) : State :=
  HAL_Interrupts_Enable_All st

/-- Source function `attachSystemInterrupt(irq, handler)`. -/
def attachSystemInterrupt (allocOk : Bool) (irq : Nat) (handler : Callback)
    (st : State) : Bool × State :=
  let r := opNew allocOk handler st
  HAL_Set_System_Interrupt_Handler irq
    (some { handler := Trampoline.call_wiring_interrupt_handler, data := r.1 }) r.2

/-- Source function `detachSystemInterrupt(irq)`. -/
def detachSystemInterrupt (irq : Nat) (st : State) : Bool × State :=
  HAL_Set_System_Interrupt_Handler irq none st

/-! ## Hardware delivery -/

/-- Run a trampoline on its context. -/
def dispatch (t : Trampoline) (data : Ptr) (st : State) : Except Fault State :=
  match t with
  | Trampoline.call_wiring_interrupt_handler => call_wiring_interrupt_handler data st
  | Trampoline.call_raw_interrupt_handler => call_raw_interrupt_handler data st

/-- Modelled from the spec: a hardware signal on `pin`, as delivered by the
external hardware interrupt controller: when the global gate is open and the
pin is armed, the registered trampoline runs on the registered context;
otherwise nothing happens. -/
def fire (pin : Nat) (st : State) : Except Fault State :=
  if st.gate then
    match st.armed pin with
    | some b => dispatch b.trampoline b.data st
    | none => Except.ok st
  else Except.ok st

/-! ## Observers used in the statements -/

/-- The effects performed between two states of one run. -/
def newEffects (before after : State) : List Effect :=
  after.trace.drop before.trace.length

/-- Recogniser of `HAL_Interrupts_Attach` calls in a trace. -/
def isHalAttach : Effect → Bool
  | Effect.halAttach _ _ _ _ => true
  | _ => false

/-- Whether `pin` is armed after the effects `es`, given whether it was armed
before them: the last HAL call on `pin` decides. -/
def armedAfter (pin : Nat) (start : Bool) (es : List Effect) : Bool :=
  es.foldl (fun a e =>
    match e with
    | Effect.halDetach q => if q = pin then false else a
    | Effect.halAttach q _ _ _ => if q = pin then true else a
    | _ => a) start

/-- A configuration without reserved pin (`Wiring_Cellular` is not 1). -/
def Config.plain : Config := { Wiring_Cellular := 0, D7 := 7 }

/-- The cellular configuration: `Wiring_Cellular == 1`, `D7` is pin 7. -/
def Config.cellular : Config := { Wiring_Cellular := 1, D7 := 7 }

/-- The state reached from the initial one by a successful
`attachInterrupt(3, cb 5, mode 1)` in the plain configuration: slot 3 holds
address 1, a live copy of callback 5, armed on pin 3. -/
def State.armed3 : State :=
  match attachInterrupt Config.plain true 3 5 1 State.init with
  | Except.ok r => r.2
  | Except.error _ => State.init

/-! ## Call sequences -/

/-- One call of the public interface for external interrupts; the outcome of
the allocation is part of an owning attach. -/
inductive Call where
  | attach (allocOk : Bool) (pin : Nat) (fn : Callback) (mode : InterruptMode)
  | attachRaw (pin : Nat) (handler : RawHandler) (mode : InterruptMode)
  | detach (pin : Nat)
  | noInterrupts
  | interrupts
deriving DecidableEq, Repr

/-- The call names a source below 16 (calls without a source qualify). -/
def Call.inRange : Call → Bool
  | Call.attach _ pin _ _ => decide (pin < 16)
  | Call.attachRaw pin _ _ => decide (pin < 16)
  | Call.detach pin => decide (pin < 16)
  | Call.noInterrupts => true
  | Call.interrupts => true

/-- Perform one call, dropping the return value. -/
def step (cfg : Config) (c : Call) (st : State) : Except Fault State :=
  match c with
  | Call.attach allocOk pin fn mode =>
    match attachInterrupt cfg allocOk pin fn mode st with
    | Except.ok r => Except.ok r.2
    | Except.error e => Except.error e
  | Call.attachRaw pin handler mode => Except.ok (attachInterruptRaw cfg pin handler mode st).2
  | Call.detach pin => detachInterrupt cfg pin st
  | Call.noInterrupts => Except.ok (noInterrupts st)
  | Call.interrupts => Except.ok (interrupts st)

/-- Perform a sequence of calls, stopping at the first fault. -/
def run (cfg : Config) : List Call → State → Except Fault State
  | [], st => Except.ok st
  | c :: cs, st =>
    match step cfg c st with
    | Except.ok st' => run cfg cs st'
    | Except.error e => Except.error e

/-- Deliver `n` signals on `pin`, stopping at the first fault. -/
def fireTimes : Nat → Nat → State → Except Fault State
  | 0, _, st => Except.ok st
  | n + 1, pin, st =>
    match fire pin st with
    | Except.ok st' => fireTimes n pin st'
    | Except.error e => Except.error e

/-- How many times callback `fn` was invoked so far. -/
def invocations (fn : Callback) (st : State) : Nat :=
  st.trace.count (Effect.invoke fn)

/-- Consistency of table, heap and hardware: every non-null slot points to a
live object inside the heap, distinct slots hold distinct objects, a pin armed
with the owning trampoline has the content of its slot as context, and a
reserved pin is never armed. -/
structure Consistent (cfg : Config) (st : State) : Prop where
  slot_live : ∀ i : Fin 16, st.handlers i ≠ 0 →
    ∃ c : Cell, cellAt st.heap (st.handlers i) = some c ∧ c.destroyed = 0
  slot_inj : ∀ i j : Fin 16, st.handlers i ≠ 0 → st.handlers i = st.handlers j → i = j
  slot_bound : ∀ i : Fin 16, st.handlers i ≤ st.heap.length
  armed_slot : ∀ (s : Nat) (p : Ptr) (m : InterruptMode),
    st.armed s
      = some { trampoline := Trampoline.call_wiring_interrupt_handler, data := p, mode := m } →
    ∃ h : s < 16, st.handlers ⟨s, h⟩ = p ∧ p ≠ 0
  reserved_unarmed : ∀ s : Nat, reserved cfg s = true → st.armed s = none

/-! ## Heap lemmas -/

theorem destroyAt_length (i : Nat) (heap : List Cell) :
    (destroyAt i heap).length = heap.length := by
  induction heap generalizing i with
  | nil => cases i <;> rfl
  | cons c cs ih =>
    cases i with
    | zero => rfl
    | succ i => simp [destroyAt, ih]

theorem release_length (p : Nat) (heap : List Cell) :
    (release p heap).length = heap.length := by
  unfold release
  split
  · rfl
  · exact destroyAt_length _ _

theorem destroyAt_append_last (heap : List Cell) (c : Cell) :
    destroyAt heap.length (heap ++ [c])
      = heap ++ [{ c with destroyed := c.destroyed + 1 }] := by
  induction heap with
  | nil => rfl
  | cons d ds ih => simp [destroyAt, ih]

theorem destroyAt_append_left (i : Nat) (heap tail : List Cell) (h : i < heap.length) :
    destroyAt i (heap ++ tail) = destroyAt i heap ++ tail := by
  induction heap generalizing i with
  | nil => simp at h
  | cons d ds ih =>
    cases i with
    | zero => rfl
    | succ i =>
      simp only [List.cons_append, destroyAt, List.cons.injEq, true_and]
      exact ih i (by simpa using h)

theorem release_fresh (heap : List Cell) (c : Cell) :
    release (heap.length + 1) (heap ++ [c])
      = heap ++ [{ c with destroyed := c.destroyed + 1 }] := by
  simp [release, destroyAt_append_last]

theorem getElem?_destroyAt (i j : Nat) (heap : List Cell) :
    (destroyAt i heap)[j]?
      = if j = i then (heap[j]?).map (fun c => { c with destroyed := c.destroyed + 1 })
        else heap[j]? := by
  induction heap generalizing i j with
  | nil => cases i <;> simp [destroyAt]
  | cons d ds ih =>
    cases i with
    | zero => cases j <;> simp [destroyAt]
    | succ i =>
      cases j with
      | zero => simp [destroyAt]
      | succ j => simpa [destroyAt] using ih i j

theorem cellAt_release (p q : Nat) (heap : List Cell) (hp : p ≠ 0) :
    cellAt (release p heap) q
      = if q = p then (cellAt heap q).map (fun c => { c with destroyed := c.destroyed + 1 })
        else cellAt heap q := by
  unfold cellAt release
  by_cases hq : q = 0
  · subst hq
    have : (0 : Nat) ≠ p := fun h => hp h.symm
    simp [this]
  · simp only [hp, hq, if_false, getElem?_destroyAt]
    have : (q - 1 = p - 1) ↔ q = p := by constructor <;> intro <;> omega
    simp only [this]

theorem cellAt_release_null (q : Nat) (heap : List Cell) :
    cellAt (release 0 heap) q = cellAt heap q := by
  simp [release]

theorem cellAt_append_fresh (heap : List Cell) (c : Cell) :
    cellAt (heap ++ [c]) (heap.length + 1) = some c := by
  simp [cellAt]

theorem cellAt_append_old (heap tail : List Cell) (p : Nat) (h : p ≤ heap.length) :
    cellAt (heap ++ tail) p = cellAt heap p := by
  by_cases hp : p = 0
  · simp [cellAt, hp]
  · have hlt : p - 1 < heap.length := by omega
    simp [cellAt, hp, List.getElem?_append_left hlt]

theorem isLive_release_append (heap tail : List Cell) (p : Nat) (h : p ≤ heap.length) :
    isLive (release p heap ++ tail) p = false := by
  by_cases hp : p = 0
  · subst hp
    simp [isLive, cellAt]
  · rw [isLive, cellAt_append_old _ _ _ (by rw [release_length]; exact h),
      cellAt_release _ _ _ hp, if_pos rfl]
    cases cellAt heap p <;> simp

theorem cellAt_none_of_gt (heap : List Cell) (p : Nat) (h : heap.length < p) :
    cellAt heap p = none := by
  have hp : p ≠ 0 := by omega
  have hge : heap.length ≤ p - 1 := by omega
  simp [cellAt, hp, List.getElem?_eq_none hge]

/-! ## Closed forms of the operations on an in-range, unreserved pin -/

theorem attachInterrupt_success (cfg : Config) (pin : Nat) (fn : Callback)
    (mode : InterruptMode) (st : State) (hr : reserved cfg pin = false) (h : pin < 16) :
    attachInterrupt cfg true pin fn mode st
      = Except.ok (true,
          { handlers := Function.update st.handlers ⟨pin, h⟩ (st.heap.length + 1)
            heap := release (st.handlers ⟨pin, h⟩) st.heap ++ [{ fn := fn, destroyed := 0 }]
            armed := Function.update st.armed pin
              (some { trampoline := Trampoline.call_wiring_interrupt_handler,
                      data := st.heap.length + 1, mode := mode })
            gate := st.gate
            system := st.system
            trace := st.trace ++
              [Effect.halDetach pin,
               Effect.opDelete (st.handlers ⟨pin, h⟩),
               Effect.opNew fn (st.heap.length + 1),
               Effect.store pin (st.heap.length + 1),
               Effect.halAttach pin Trampoline.call_wiring_interrupt_handler
                 (st.heap.length + 1) mode] }) := by
  simp [attachInterrupt, hr, allocate_handler, h, opNew, opDelete, HAL_Interrupts_Detach,
    HAL_Interrupts_Attach, release_length]

theorem attachInterrupt_failure (cfg : Config) (pin : Nat) (fn : Callback)
    (mode : InterruptMode) (st : State) (hr : reserved cfg pin = false) (h : pin < 16) :
    attachInterrupt cfg false pin fn mode st
      = Except.ok (false,
          { handlers := Function.update st.handlers ⟨pin, h⟩ 0
            heap := release (st.handlers ⟨pin, h⟩) st.heap
            armed := Function.update st.armed pin none
            gate := st.gate
            system := st.system
            trace := st.trace ++
              [Effect.halDetach pin,
               Effect.opDelete (st.handlers ⟨pin, h⟩),
               Effect.opNew fn 0,
               Effect.store pin 0] }) := by
  simp [attachInterrupt, hr, allocate_handler, h, opNew, opDelete, HAL_Interrupts_Detach]

theorem detachInterrupt_eq (cfg : Config) (pin : Nat) (st : State)
    (hr : reserved cfg pin = false) (h : pin < 16) :
    detachInterrupt cfg pin st
      = Except.ok
          { handlers := Function.update st.handlers ⟨pin, h⟩ 0
            heap := release (st.handlers ⟨pin, h⟩) st.heap
            armed := Function.update st.armed pin none
            gate := st.gate
            system := st.system
            trace := st.trace ++
              [Effect.halDetach pin,
               Effect.opDelete (st.handlers ⟨pin, h⟩),
               Effect.store pin 0] } := by
  simp [detachInterrupt, hr, h, opDelete, HAL_Interrupts_Detach]

theorem attachInterruptRaw_eq (cfg : Config) (pin : Nat) (handler : RawHandler)
    (mode : InterruptMode) (st : State) (hr : reserved cfg pin = false) :
    attachInterruptRaw cfg pin handler mode st
      = (true,
          { handlers := st.handlers
            heap := st.heap
            armed := Function.update st.armed pin
              (some { trampoline := Trampoline.call_raw_interrupt_handler,
                      data := handler, mode := mode })
            gate := st.gate
            system := st.system
            trace := st.trace ++
              [Effect.halDetach pin,
               Effect.halAttach pin Trampoline.call_raw_interrupt_handler handler mode] }) := by
  simp [attachInterruptRaw, hr, HAL_Interrupts_Detach, HAL_Interrupts_Attach]

theorem fire_raw (pin : Nat) (h : RawHandler) (m : InterruptMode) (st : State)
    (hg : st.gate = true)
    (ha : st.armed pin
      = some { trampoline := Trampoline.call_raw_interrupt_handler, data := h, mode := m }) :
    fire pin st = Except.ok { st with trace := st.trace ++ [Effect.invokeRaw h] } := by
  simp [fire, hg, ha, dispatch, call_raw_interrupt_handler]

theorem fire_unarmed (pin : Nat) (st : State) (ha : st.armed pin = none) :
    fire pin st = Except.ok st := by
  simp [fire, ha]

theorem fire_gate_closed (pin : Nat) (st : State) (hg : st.gate = false) :
    fire pin st = Except.ok st := by
  simp [fire, hg]

theorem fire_wiring (pin : Nat) (p : Nat) (m : InterruptMode) (c : Cell) (st : State)
    (hg : st.gate = true)
    (ha : st.armed pin
      = some { trampoline := Trampoline.call_wiring_interrupt_handler, data := p, mode := m })
    (hc : cellAt st.heap p = some c) (hl : c.destroyed = 0) :
    fire pin st = Except.ok { st with trace := st.trace ++ [Effect.invoke c.fn] } := by
  simp [fire, hg, ha, dispatch, call_wiring_interrupt_handler, hc, hl]

theorem newEffects_append (st st' : State) (es : List Effect)
    (h : st'.trace = st.trace ++ es) : newEffects st st' = es := by
  simp [newEffects, h]

/-! ## Consistency is preserved by every call -/

theorem consistent_init (cfg : Config) : Consistent cfg State.init where
  slot_live := fun i hi => absurd rfl hi
  slot_inj := fun i _ hi _ => absurd rfl hi
  slot_bound := fun _ => Nat.le_refl 0
  armed_slot := fun s p m h => by simp [State.init] at h
  reserved_unarmed := fun _ _ => rfl

theorem cellAt_release_other {cfg : Config} {st : State} (hinv : Consistent cfg st)
    (s i : Fin 16) (hne : i ≠ s) (hi : st.handlers i ≠ 0) :
    cellAt (release (st.handlers s) st.heap) (st.handlers i)
      = cellAt st.heap (st.handlers i) := by
  by_cases h0 : st.handlers s = 0
  · rw [h0]
    exact cellAt_release_null _ _
  · rw [cellAt_release _ _ _ h0, if_neg]
    intro heq
    exact hne (hinv.slot_inj i s hi heq)

theorem consistent_clear {cfg : Config} {st : State} (hinv : Consistent cfg st)
    (s : Nat) (hs : s < 16) (g : Bool) (sys : Nat → Option HAL_InterruptCallback)
    (tr : List Effect) :
    Consistent cfg
      { handlers := Function.update st.handlers ⟨s, hs⟩ 0
        heap := release (st.handlers ⟨s, hs⟩) st.heap
        armed := Function.update st.armed s none
        gate := g
        system := sys
        trace := tr } where
  slot_live := by
    intro i hi
    by_cases his : i = ⟨s, hs⟩
    · subst his
      simp at hi
    · simp only [Function.update_noteq his] at hi ⊢
      rw [cellAt_release_other hinv _ _ his hi]
      exact hinv.slot_live i hi
  slot_inj := by
    intro i j hi heq
    by_cases his : i = ⟨s, hs⟩
    · subst his
      simp at hi
    · simp only [Function.update_noteq his] at hi heq
      by_cases hjs : j = ⟨s, hs⟩
      · subst hjs
        simp only [Function.update_same] at heq
        exact absurd heq hi
      · simp only [Function.update_noteq hjs] at heq
        exact hinv.slot_inj i j hi heq
  slot_bound := by
    intro i
    show Function.update st.handlers ⟨s, hs⟩ 0 i ≤ (release (st.handlers ⟨s, hs⟩) st.heap).length
    rw [release_length]
    by_cases his : i = ⟨s, hs⟩
    · subst his
      simp
    · rw [Function.update_noteq his]
      exact hinv.slot_bound i
  armed_slot := by
    intro s' p m h
    by_cases hss : s' = s
    · subst hss
      simp at h
    · simp only [Function.update_noteq hss] at h
      obtain ⟨h', heq, hp⟩ := hinv.armed_slot s' p m h
      refine ⟨h', ?_, hp⟩
      have hne : (⟨s', h'⟩ : Fin 16) ≠ ⟨s, hs⟩ := by
        intro hc
        exact hss (Fin.mk.inj hc)
      simp only [Function.update_noteq hne]
      exact heq
  reserved_unarmed := by
    intro s' hres
    by_cases hss : s' = s
    · subst hss
      simp
    · simp only [Function.update_noteq hss]
      exact hinv.reserved_unarmed s' hres

theorem consistent_install {cfg : Config} {st : State} (hinv : Consistent cfg st)
    (s : Nat) (hs : s < 16) (hr : reserved cfg s = false) (fn : Callback) (m : InterruptMode)
    (g : Bool) (sys : Nat → Option HAL_InterruptCallback) (tr : List Effect) :
    Consistent cfg
      { handlers := Function.update st.handlers ⟨s, hs⟩ (st.heap.length + 1)
        heap := release (st.handlers ⟨s, hs⟩) st.heap ++ [{ fn := fn, destroyed := 0 }]
        armed := Function.update st.armed s
          (some { trampoline := Trampoline.call_wiring_interrupt_handler,
                  data := st.heap.length + 1, mode := m })
        gate := g
        system := sys
        trace := tr } where
  slot_live := by
    intro i _
    by_cases his : i = ⟨s, hs⟩
    · subst his
      refine ⟨{ fn := fn, destroyed := 0 }, ?_, rfl⟩
      simp only [Function.update_same]
      have := cellAt_append_fresh (release (st.handlers ⟨s, hs⟩) st.heap)
        { fn := fn, destroyed := 0 }
      rw [release_length] at this
      exact this
    · rename_i hi
      simp only [Function.update_noteq his] at hi ⊢
      rw [cellAt_append_old _ _ _ (by rw [release_length]; exact hinv.slot_bound i),
        cellAt_release_other hinv _ _ his hi]
      exact hinv.slot_live i hi
  slot_inj := by
    intro i j hi heq
    by_cases his : i = ⟨s, hs⟩
    · by_cases hjs : j = ⟨s, hs⟩
      · rw [his, hjs]
      · subst his
        simp only [Function.update_same, Function.update_noteq hjs] at heq
        have hb : st.handlers j ≤ st.heap.length := hinv.slot_bound j
        rw [← heq] at hb
        exact absurd hb (Nat.not_succ_le_self _)
    · simp only [Function.update_noteq his] at hi heq
      by_cases hjs : j = ⟨s, hs⟩
      · subst hjs
        simp only [Function.update_same] at heq
        have hb : st.handlers i ≤ st.heap.length := hinv.slot_bound i
        rw [heq] at hb
        exact absurd hb (Nat.not_succ_le_self _)
      · simp only [Function.update_noteq hjs] at heq
        exact hinv.slot_inj i j hi heq
  slot_bound := by
    intro i
    show Function.update st.handlers ⟨s, hs⟩ (st.heap.length + 1) i
      ≤ (release (st.handlers ⟨s, hs⟩) st.heap
          ++ [({ fn := fn, destroyed := 0 } : Cell)]).length
    rw [List.length_append, release_length]
    by_cases his : i = ⟨s, hs⟩
    · subst his
      simp
    · rw [Function.update_noteq his]
      exact Nat.le_trans (hinv.slot_bound i) (Nat.le_add_right _ _)
  armed_slot := by
    intro s' p m' h
    by_cases hss : s' = s
    · subst hss
      simp only [Function.update_same, Option.some.injEq, Binding.mk.injEq, true_and] at h
      refine ⟨hs, ?_, ?_⟩
      · simp only [Function.update_same]
        exact h.1
      · rw [← h.1]
        exact Nat.succ_ne_zero _
    · simp only [Function.update_noteq hss] at h
      obtain ⟨h', heq, hp⟩ := hinv.armed_slot s' p m' h
      refine ⟨h', ?_, hp⟩
      have hne : (⟨s', h'⟩ : Fin 16) ≠ ⟨s, hs⟩ := by
        intro hc
        exact hss (Fin.mk.inj hc)
      simp only [Function.update_noteq hne]
      exact heq
  reserved_unarmed := by
    intro s' hres
    have hss : s' ≠ s := by
      intro hc
      rw [hc, hr] at hres
      cases hres
    simp only [Function.update_noteq hss]
    exact hinv.reserved_unarmed s' hres

theorem consistent_raw {cfg : Config} {st : State} (hinv : Consistent cfg st)
    (s : Nat) (hr : reserved cfg s = false) (h : RawHandler) (m : InterruptMode)
    (g : Bool) (sys : Nat → Option HAL_InterruptCallback) (tr : List Effect) :
    Consistent cfg
      { handlers := st.handlers
        heap := st.heap
        armed := Function.update st.armed s
          (some { trampoline := Trampoline.call_raw_interrupt_handler, data := h, mode := m })
        gate := g
        system := sys
        trace := tr } where
  slot_live := hinv.slot_live
  slot_inj := hinv.slot_inj
  slot_bound := hinv.slot_bound
  armed_slot := by
    intro s' p m' ha
    by_cases hss : s' = s
    · subst hss
      simp at ha
    · simp only [Function.update_noteq hss] at ha
      exact hinv.armed_slot s' p m' ha
  reserved_unarmed := by
    intro s' hres
    have hss : s' ≠ s := by
      intro hc
      rw [hc, hr] at hres
      cases hres
    simp only [Function.update_noteq hss]
    exact hinv.reserved_unarmed s' hres

theorem consistent_gate {cfg : Config} {st : State} (hinv : Consistent cfg st)
    (g : Bool) (tr : List Effect) :
    Consistent cfg { st with gate := g, trace := tr } where
  slot_live := hinv.slot_live
  slot_inj := hinv.slot_inj
  slot_bound := hinv.slot_bound
  armed_slot := hinv.armed_slot
  reserved_unarmed := hinv.reserved_unarmed

theorem step_consistent (cfg : Config) (c : Call) (st : State)
    (hc : c.inRange = true) (hinv : Consistent cfg st) :
    ∃ st' : State, step cfg c st = Except.ok st' ∧ Consistent cfg st' := by
  cases c with
  | attach allocOk pin fn mode =>
    have hp : pin < 16 := by simpa [Call.inRange] using hc
    cases hr : reserved cfg pin with
    | true => exact ⟨st, by simp [step, attachInterrupt, hr], hinv⟩
    | false =>
      cases allocOk with
      | true =>
        simp only [step, attachInterrupt_success cfg pin fn mode st hr hp]
        exact ⟨_, rfl, consistent_install hinv pin hp hr fn mode _ _ _⟩
      | false =>
        simp only [step, attachInterrupt_failure cfg pin fn mode st hr hp]
        exact ⟨_, rfl, consistent_clear hinv pin hp _ _ _⟩
  | attachRaw pin handler mode =>
    cases hr : reserved cfg pin with
    | true => exact ⟨st, by simp [step, attachInterruptRaw, hr], hinv⟩
    | false =>
      simp only [step, attachInterruptRaw_eq cfg pin handler mode st hr]
      exact ⟨_, rfl, consistent_raw hinv pin hr handler mode _ _ _⟩
  | detach pin =>
    have hp : pin < 16 := by simpa [Call.inRange] using hc
    cases hr : reserved cfg pin with
    | true => exact ⟨st, by simp [step, detachInterrupt, hr], hinv⟩
    | false =>
      simp only [step, detachInterrupt_eq cfg pin st hr hp]
      exact ⟨_, rfl, consistent_clear hinv pin hp _ _ _⟩
  | noInterrupts =>
    exact ⟨_, rfl, consistent_gate hinv false _⟩
  | interrupts =>
    exact ⟨_, rfl, consistent_gate hinv true _⟩

theorem run_consistent (cfg : Config) (calls : List Call) (st : State)
    (hc : ∀ c ∈ calls, c.inRange = true) (hinv : Consistent cfg st) :
    ∃ st' : State, run cfg calls st = Except.ok st' ∧ Consistent cfg st' := by
  induction calls generalizing st with
  | nil => exact ⟨st, rfl, hinv⟩
  | cons c cs ih =>
    obtain ⟨st1, h1, hinv1⟩ := step_consistent cfg c st (hc c (by simp)) hinv
    obtain ⟨st2, h2, hinv2⟩ := ih st1 (fun d hd => hc d (by simp [hd])) hinv1
    exact ⟨st2, by simp [run, h1, h2], hinv2⟩

theorem fire_consistent {cfg : Config} {st : State} (hinv : Consistent cfg st) (pin : Nat) :
    ∃ st' : State, fire pin st = Except.ok st' := by
  cases hg : st.gate with
  | false => exact ⟨st, fire_gate_closed pin st hg⟩
  | true =>
    cases ha : st.armed pin with
    | none => exact ⟨st, fire_unarmed pin st ha⟩
    | some b =>
      obtain ⟨t, p, m⟩ := b
      cases t with
      | call_raw_interrupt_handler => exact ⟨_, fire_raw pin p m st hg ha⟩
      | call_wiring_interrupt_handler =>
        obtain ⟨h', heq, hp⟩ := hinv.armed_slot pin p m ha
        obtain ⟨c, hcell, hl⟩ := hinv.slot_live ⟨pin, h'⟩ (by rw [heq]; exact hp)
        rw [heq] at hcell
        exact ⟨_, fire_wiring pin p m c st hg ha hcell hl⟩

/-! ## Replace and remove -/

/-- C1: on an unreserved source `s < 16`, from any state, attaching `cb1` and
then `cb2` (both allocations succeeding) returns `true` twice; afterwards slot
`s` holds the second allocation, which is a never-destroyed copy of `cb2`; the
copy of `cb1` made by the first call has been destroyed exactly once; the heap
is the old heap (after the release of the old content of slot `s`) followed by
exactly these two objects, so the only live object created by the two calls is
the copy of `cb2`; the object that slot `s` pointed to before the two calls
is not live either. -/
theorem attach_twice_keeps_only_second (cfg : Config) (s : Nat) (m : InterruptMode)
    (cb1 cb2 : Callback) (st : State) (hr : reserved cfg s = false) (hs : s < 16) :
    ∃ st1 st2 : State,
      attachInterrupt cfg true s cb1 m st = Except.ok (true, st1) ∧
      attachInterrupt cfg true s cb2 m st1 = Except.ok (true, st2) ∧
      st1.handlers ⟨s, hs⟩ = st.heap.length + 1 ∧
      cellAt st1.heap (st.heap.length + 1) = some { fn := cb1, destroyed := 0 } ∧
      st2.handlers ⟨s, hs⟩ = st.heap.length + 2 ∧
      cellAt st2.heap (st.heap.length + 2) = some { fn := cb2, destroyed := 0 } ∧
      cellAt st2.heap (st.heap.length + 1) = some { fn := cb1, destroyed := 1 } ∧
      st2.heap = release (st.handlers ⟨s, hs⟩) st.heap
                  ++ [{ fn := cb1, destroyed := 1 }, { fn := cb2, destroyed := 0 }] ∧
      (∀ p : Nat, st.heap.length < p → isLive st2.heap p = true → p = st.heap.length + 2) ∧
      (st.handlers ⟨s, hs⟩ ≤ st.heap.length → isLive st2.heap (st.handlers ⟨s, hs⟩) = false) := by
  have hlen := release_length (st.handlers ⟨s, hs⟩) st.heap
  have hheap2 :
      release (st.heap.length + 1)
          (release (st.handlers ⟨s, hs⟩) st.heap ++ [{ fn := cb1, destroyed := 0 }])
        ++ [{ fn := cb2, destroyed := 0 }]
      = release (st.handlers ⟨s, hs⟩) st.heap
          ++ [{ fn := cb1, destroyed := 1 }, { fn := cb2, destroyed := 0 }] := by
    have := release_fresh (release (st.handlers ⟨s, hs⟩) st.heap) { fn := cb1, destroyed := 0 }
    rw [hlen] at this
    rw [this]
    simp
  refine ⟨_, _, attachInterrupt_success cfg s cb1 m st hr hs,
    attachInterrupt_success cfg s cb2 m _ hr hs, ?_, ?_, ?_, ?_, ?_, ?_, ?_, ?_⟩
  · simp
  · have := cellAt_append_fresh (release (st.handlers ⟨s, hs⟩) st.heap)
      { fn := cb1, destroyed := 0 }
    rw [hlen] at this
    exact this
  · simp [hlen]
  · simp only [Function.update_same]
    rw [hheap2]
    have := cellAt_append_fresh
      (release (st.handlers ⟨s, hs⟩) st.heap ++ [{ fn := cb1, destroyed := 1 }])
      { fn := cb2, destroyed := 0 }
    simpa [hlen] using this
  · simp only [Function.update_same]
    rw [hheap2]
    have h1 := cellAt_append_old
      (release (st.handlers ⟨s, hs⟩) st.heap ++ [{ fn := cb1, destroyed := 1 }])
      [{ fn := cb2, destroyed := 0 }] (st.heap.length + 1) (by simp [hlen])
    have h2 := cellAt_append_fresh (release (st.handlers ⟨s, hs⟩) st.heap)
      { fn := cb1, destroyed := 1 }
    rw [hlen] at h2
    simpa [h2] using h1
  · simp only [Function.update_same]
    exact hheap2
  · intro p hp hlive
    simp only [Function.update_same] at hlive
    rw [hheap2] at hlive
    by_contra hne
    by_cases h1 : p = st.heap.length + 1
    · subst h1
      have h1 := cellAt_append_old
        (release (st.handlers ⟨s, hs⟩) st.heap ++ [{ fn := cb1, destroyed := 1 }])
        [{ fn := cb2, destroyed := 0 }] (st.heap.length + 1) (by simp [hlen])
      have h2 := cellAt_append_fresh (release (st.handlers ⟨s, hs⟩) st.heap)
        { fn := cb1, destroyed := 1 }
      rw [hlen] at h2
      simp only [List.append_assoc, List.singleton_append] at h1
      simp [isLive, h1, h2] at hlive
    · have hgt : (release (st.handlers ⟨s, hs⟩) st.heap
          ++ [({ fn := cb1, destroyed := 1 } : Cell), { fn := cb2, destroyed := 0 }]).length
            < p := by
        simp [hlen]; omega
      rw [isLive, cellAt_none_of_gt _ _ hgt] at hlive
      simp at hlive
  · intro hold
    simp only [Function.update_same]
    rw [hheap2]
    exact isLive_release_append _ _ _ hold

/-- Witness for C1: pin 3 of the plain configuration, from the initial state. -/
theorem attach_twice_keeps_only_second_witness :
    reserved Config.plain 3 = false ∧ (3 : Nat) < 16 ∧
    ∃ st1 st2 : State,
      attachInterrupt Config.plain true 3 5 1 State.init = Except.ok (true, st1) ∧
      attachInterrupt Config.plain true 3 6 1 st1 = Except.ok (true, st2) ∧
      st1.handlers ⟨3, by decide⟩ = State.init.heap.length + 1 ∧
      cellAt st1.heap (State.init.heap.length + 1) = some { fn := 5, destroyed := 0 } ∧
      st2.handlers ⟨3, by decide⟩ = State.init.heap.length + 2 ∧
      cellAt st2.heap (State.init.heap.length + 2) = some { fn := 6, destroyed := 0 } ∧
      cellAt st2.heap (State.init.heap.length + 1) = some { fn := 5, destroyed := 1 } ∧
      st2.heap = release (State.init.handlers ⟨3, by decide⟩) State.init.heap
                  ++ [{ fn := 5, destroyed := 1 }, { fn := 6, destroyed := 0 }] ∧
      (∀ p : Nat, State.init.heap.length < p → isLive st2.heap p = true →
        p = State.init.heap.length + 2) ∧
      (State.init.handlers ⟨3, by decide⟩ ≤ State.init.heap.length →
        isLive st2.heap (State.init.handlers ⟨3, by decide⟩) = false) :=
  ⟨by decide, by decide,
    attach_twice_keeps_only_second Config.plain 3 1 5 6 State.init (by decide) (by decide)⟩

/-- C2: on an unreserved source `s < 16`, from any state and whatever the
outcome of the allocation, `attachInterrupt` followed by `detachInterrupt`
leaves slot `s` empty and the hardware unarmed on `s`; the object created by
the attach (if any) has been destroyed exactly once, no object created since
the start is live, and the object slot `s` pointed to before is not live. -/
theorem attach_then_detach_clears (cfg : Config) (allocOk : Bool) (s : Nat) (cb : Callback)
    (m : InterruptMode) (st : State) (hr : reserved cfg s = false) (hs : s < 16) :
    ∃ (r : Bool) (st1 st2 : State),
      attachInterrupt cfg allocOk s cb m st = Except.ok (r, st1) ∧
      detachInterrupt cfg s st1 = Except.ok st2 ∧
      st2.handlers ⟨s, hs⟩ = 0 ∧
      st2.armed s = none ∧
      st2.heap = release (st.handlers ⟨s, hs⟩) st.heap
                  ++ (if allocOk then [{ fn := cb, destroyed := 1 }] else []) ∧
      (allocOk = true →
        cellAt st2.heap (st.heap.length + 1) = some { fn := cb, destroyed := 1 }) ∧
      (∀ p : Nat, st.heap.length < p → isLive st2.heap p = false) ∧
      (st.handlers ⟨s, hs⟩ ≤ st.heap.length → isLive st2.heap (st.handlers ⟨s, hs⟩) = false) := by
  have hlen := release_length (st.handlers ⟨s, hs⟩) st.heap
  cases allocOk with
  | true =>
    have hheap :
        release (st.heap.length + 1)
            (release (st.handlers ⟨s, hs⟩) st.heap ++ [{ fn := cb, destroyed := 0 }])
          = release (st.handlers ⟨s, hs⟩) st.heap ++ [{ fn := cb, destroyed := 1 }] := by
      have := release_fresh (release (st.handlers ⟨s, hs⟩) st.heap) { fn := cb, destroyed := 0 }
      rw [hlen] at this
      exact this
    have hcell : cellAt (release (st.handlers ⟨s, hs⟩) st.heap ++ [{ fn := cb, destroyed := 1 }])
        (st.heap.length + 1) = some { fn := cb, destroyed := 1 } := by
      have := cellAt_append_fresh (release (st.handlers ⟨s, hs⟩) st.heap)
        { fn := cb, destroyed := 1 }
      rw [hlen] at this
      exact this
    refine ⟨true, _, _, attachInterrupt_success cfg s cb m st hr hs,
      detachInterrupt_eq cfg s _ hr hs, ?_, ?_, ?_, ?_, ?_, ?_⟩
    · simp
    · simp
    · simp only [Function.update_same, if_true]
      exact hheap
    · intro _
      simp only [Function.update_same]
      rw [hheap]
      exact hcell
    · intro p hp
      simp only [Function.update_same]
      rw [hheap]
      by_cases h1 : p = st.heap.length + 1
      · subst h1
        rw [isLive, hcell]
        rfl
      · have hgt : (release (st.handlers ⟨s, hs⟩) st.heap
            ++ [({ fn := cb, destroyed := 1 } : Cell)]).length < p := by
          simp [hlen]; omega
        rw [isLive, cellAt_none_of_gt _ _ hgt]
    · intro hold
      simp only [Function.update_same]
      rw [hheap]
      exact isLive_release_append _ _ _ hold
  | false =>
    refine ⟨false, _, _, attachInterrupt_failure cfg s cb m st hr hs,
      detachInterrupt_eq cfg s _ hr hs, ?_, ?_, ?_, ?_, ?_, ?_⟩
    · simp
    · simp
    · simp [release]
    · intro h
      cases h
    · intro p hp
      simp only [Function.update_same]
      have hgt : (release 0 (release (st.handlers ⟨s, hs⟩) st.heap)).length < p := by
        rw [release_length, hlen]; exact hp
      rw [isLive, cellAt_none_of_gt _ _ hgt]
    · intro hold
      simp only [Function.update_same]
      have := isLive_release_append st.heap [] _ hold
      simpa [release] using this

/-- Witness for C2: pin 3 of the plain configuration, from the initial state. -/
theorem attach_then_detach_clears_witness :
    reserved Config.plain 3 = false ∧ (3 : Nat) < 16 ∧
    ∃ (r : Bool) (st1 st2 : State),
      attachInterrupt Config.plain true 3 5 1 State.init = Except.ok (r, st1) ∧
      detachInterrupt Config.plain 3 st1 = Except.ok st2 ∧
      st2.handlers ⟨3, by decide⟩ = 0 ∧
      st2.armed 3 = none ∧
      st2.heap = release (State.init.handlers ⟨3, by decide⟩) State.init.heap
                  ++ (if true = true then [{ fn := 5, destroyed := 1 }] else []) ∧
      (true = true →
        cellAt st2.heap (State.init.heap.length + 1) = some { fn := 5, destroyed := 1 }) ∧
      (∀ p : Nat, State.init.heap.length < p → isLive st2.heap p = false) ∧
      (State.init.handlers ⟨3, by decide⟩ ≤ State.init.heap.length →
        isLive st2.heap (State.init.handlers ⟨3, by decide⟩) = false) :=
  ⟨by decide, by decide,
    attach_then_detach_clears Config.plain true 3 5 1 State.init (by decide) (by decide)⟩

/-! ## Reserved source -/

/-- C3: when `Wiring_Cellular == 1`, both `attachInterrupt` overloads return
`false` on pin `D7` and `detachInterrupt` returns, each leaving the whole
state as it was: the returned state is the given one, with the same table,
heap, hardware and effect trace, so no HAL call was made. -/
theorem reserved_source_untouched (cfg : Config) (allocOk : Bool) (cb : Callback)
    (h : RawHandler) (m : InterruptMode) (st : State) (hc : cfg.Wiring_Cellular = 1) :
    attachInterrupt cfg allocOk cfg.D7 cb m st = Except.ok (false, st) ∧
    attachInterruptRaw cfg cfg.D7 h m st = (false, st) ∧
    detachInterrupt cfg cfg.D7 st = Except.ok st := by
  have hres : reserved cfg cfg.D7 = true := by simp [reserved, hc]
  refine ⟨?_, ?_, ?_⟩
  · simp [attachInterrupt, hres]
  · simp [attachInterruptRaw, hres]
  · simp [detachInterrupt, hres]

/-- Witness for C3: the cellular configuration, from the initial state. -/
theorem reserved_source_untouched_witness :
    Config.cellular.Wiring_Cellular = 1 ∧
    attachInterrupt Config.cellular true Config.cellular.D7 5 1 State.init
      = Except.ok (false, State.init) ∧
    attachInterruptRaw Config.cellular Config.cellular.D7 9 1 State.init
      = (false, State.init) ∧
    detachInterrupt Config.cellular Config.cellular.D7 State.init = Except.ok State.init :=
  ⟨rfl, reserved_source_untouched Config.cellular true 5 9 1 State.init rfl⟩

/-! ## Outcome of the owning attach -/

theorem armed3_eq :
    State.armed3 =
      { handlers := Function.update (fun _ => 0) ⟨3, by decide⟩ 1
        heap := [{ fn := 5, destroyed := 0 }]
        armed := Function.update (fun _ => none) 3
          (some { trampoline := Trampoline.call_wiring_interrupt_handler, data := 1, mode := 1 })
        gate := true
        system := fun _ => none
        trace := [Effect.halDetach 3, Effect.opDelete 0, Effect.opNew 5 1, Effect.store 3 1,
          Effect.halAttach 3 Trampoline.call_wiring_interrupt_handler 1 1] } := by
  unfold State.armed3
  rw [attachInterrupt_success Config.plain 3 5 1 State.init (by decide) (by decide)]
  simp [State.init, release]

/-- C4, refuted as stated: in `State.armed3` slot 3 holds the live copy of
callback 5 at address 1, armed on pin 3; a failing `attachInterrupt` on pin 3
returns `false`, but afterwards slot 3 is `NULL`, the old object has been
destroyed and pin 3 is unarmed: the old callback is not left untouched, in
its slot and armed. -/
theorem failed_attach_drops_old_counterexample :
    State.armed3.handlers ⟨3, by decide⟩ = 1 ∧
    cellAt State.armed3.heap 1 = some { fn := 5, destroyed := 0 } ∧
    State.armed3.armed 3
      = some { trampoline := Trampoline.call_wiring_interrupt_handler, data := 1, mode := 1 } ∧
    ¬ ∃ st' : State,
        attachInterrupt Config.plain false 3 6 2 State.armed3 = Except.ok (false, st') ∧
        st'.handlers ⟨3, by decide⟩ = 1 ∧
        isLive st'.heap 1 = true ∧
        st'.armed 3
          = some { trampoline := Trampoline.call_wiring_interrupt_handler,
                   data := 1, mode := 1 } := by
  refine ⟨?_, ?_, ?_, ?_⟩
  · rw [armed3_eq]; rfl
  · rw [armed3_eq]; rfl
  · rw [armed3_eq]; simp
  · rintro ⟨st', hcall, hslot, -, -⟩
    rw [attachInterrupt_failure Config.plain 3 6 2 State.armed3 (by decide) (by decide)] at hcall
    simp only [Except.ok.injEq, Prod.mk.injEq, true_and] at hcall
    rw [← hcall] at hslot
    simp at hslot

/-- C4, amended: on an unreserved source `s < 16` whose slot holds a live
callback object (armed on the hardware or not), an `attachInterrupt` whose
allocation fails returns `false` without calling `HAL_Interrupts_Attach`;
afterwards slot `s` is `NULL`, the old object has been destroyed exactly once,
and the hardware is unarmed on `s`. -/
theorem failed_attach_releases_old (cfg : Config) (s : Nat) (cb_old cb_new : Callback)
    (m : InterruptMode) (st : State) (hr : reserved cfg s = false) (hs : s < 16)
    (hlive : cellAt st.heap (st.handlers ⟨s, hs⟩) = some { fn := cb_old, destroyed := 0 }) :
    ∃ st' : State,
      attachInterrupt cfg false s cb_new m st = Except.ok (false, st') ∧
      st'.handlers ⟨s, hs⟩ = 0 ∧
      cellAt st'.heap (st.handlers ⟨s, hs⟩) = some { fn := cb_old, destroyed := 1 } ∧
      isLive st'.heap (st.handlers ⟨s, hs⟩) = false ∧
      st'.armed s = none ∧
      (newEffects st st').filter isHalAttach = [] := by
  have hp : st.handlers ⟨s, hs⟩ ≠ 0 := by
    intro h0
    rw [h0] at hlive
    simp [cellAt] at hlive
  have hcell : cellAt (release (st.handlers ⟨s, hs⟩) st.heap) (st.handlers ⟨s, hs⟩)
      = some { fn := cb_old, destroyed := 1 } := by
    rw [cellAt_release _ _ _ hp, if_pos rfl, hlive]
    rfl
  refine ⟨_, attachInterrupt_failure cfg s cb_new m st hr hs, ?_, ?_, ?_, ?_, ?_⟩
  · simp
  · exact hcell
  · simp only []
    rw [isLive, hcell]
    rfl
  · simp
  · rw [newEffects_append st _ _ rfl]
    rfl

/-- Witness for C4 (amended): `State.armed3`, pin 3. -/
theorem failed_attach_releases_old_witness :
    reserved Config.plain 3 = false ∧ (3 : Nat) < 16 ∧
    cellAt State.armed3.heap (State.armed3.handlers ⟨3, by decide⟩)
      = some { fn := 5, destroyed := 0 } ∧
    ∃ st' : State,
      attachInterrupt Config.plain false 3 6 2 State.armed3 = Except.ok (false, st') ∧
      st'.handlers ⟨3, by decide⟩ = 0 ∧
      cellAt st'.heap (State.armed3.handlers ⟨3, by decide⟩)
        = some { fn := 5, destroyed := 1 } ∧
      isLive st'.heap (State.armed3.handlers ⟨3, by decide⟩) = false ∧
      st'.armed 3 = none ∧
      (newEffects State.armed3 st').filter isHalAttach = [] :=
  ⟨by decide, by decide, by rw [armed3_eq]; rfl,
    failed_attach_releases_old Config.plain 3 5 6 2 State.armed3 (by decide) (by decide)
      (by rw [armed3_eq]; rfl)⟩

/-- C5: on an unreserved source `s < 16`, `attachInterrupt` returns `true`
exactly when the allocation succeeded.  When it returns `true`, slot `s` holds
a non-null pointer to a never-destroyed copy of `cb`, the hardware is armed on
`s` with `call_wiring_interrupt_handler`, that pointer as context and the mode
`m`, and the call made exactly one `HAL_Interrupts_Attach`, with these
arguments.  When it returns `false`, `HAL_Interrupts_Attach` was not called
and the hardware is unarmed on `s`. -/
theorem attach_returns_allocation_outcome (cfg : Config) (allocOk : Bool) (s : Nat)
    (cb : Callback) (m : InterruptMode) (st : State)
    (hr : reserved cfg s = false) (hs : s < 16) :
    ∃ (r : Bool) (st' : State),
      attachInterrupt cfg allocOk s cb m st = Except.ok (r, st') ∧
      (r = true ↔ allocOk = true) ∧
      (r = true →
        st'.handlers ⟨s, hs⟩ ≠ 0 ∧
        cellAt st'.heap (st'.handlers ⟨s, hs⟩) = some { fn := cb, destroyed := 0 } ∧
        st'.armed s
          = some { trampoline := Trampoline.call_wiring_interrupt_handler,
                   data := st'.handlers ⟨s, hs⟩, mode := m } ∧
        (newEffects st st').filter isHalAttach
          = [Effect.halAttach s Trampoline.call_wiring_interrupt_handler
               (st'.handlers ⟨s, hs⟩) m]) ∧
      (r = false →
        st'.armed s = none ∧ (newEffects st st').filter isHalAttach = []) := by
  have hlen := release_length (st.handlers ⟨s, hs⟩) st.heap
  cases allocOk with
  | true =>
    refine ⟨true, _, attachInterrupt_success cfg s cb m st hr hs, by simp, ?_, ?_⟩
    · intro _
      refine ⟨by simp, ?_, by simp, ?_⟩
      · simp only [Function.update_same]
        have := cellAt_append_fresh (release (st.handlers ⟨s, hs⟩) st.heap)
          { fn := cb, destroyed := 0 }
        rw [hlen] at this
        exact this
      · rw [newEffects_append st _ _ rfl]
        simp [isHalAttach]
    · intro h
      cases h
  | false =>
    refine ⟨false, _, attachInterrupt_failure cfg s cb m st hr hs, by simp, ?_, ?_⟩
    · intro h
      cases h
    · intro _
      refine ⟨by simp, ?_⟩
      rw [newEffects_append st _ _ rfl]
      rfl

/-- Witness for C5: pin 3 of the plain configuration, from the initial state. -/
theorem attach_returns_allocation_outcome_witness :
    reserved Config.plain 3 = false ∧ (3 : Nat) < 16 ∧
    ∃ (r : Bool) (st' : State),
      attachInterrupt Config.plain true 3 5 1 State.init = Except.ok (r, st') ∧
      (r = true ↔ true = true) ∧
      (r = true →
        st'.handlers ⟨3, by decide⟩ ≠ 0 ∧
        cellAt st'.heap (st'.handlers ⟨3, by decide⟩) = some { fn := 5, destroyed := 0 } ∧
        st'.armed 3
          = some { trampoline := Trampoline.call_wiring_interrupt_handler,
                   data := st'.handlers ⟨3, by decide⟩, mode := 1 } ∧
        (newEffects State.init st').filter isHalAttach
          = [Effect.halAttach 3 Trampoline.call_wiring_interrupt_handler
               (st'.handlers ⟨3, by decide⟩) 1]) ∧
      (r = false →
        st'.armed 3 = none ∧ (newEffects State.init st').filter isHalAttach = []) :=
  ⟨by decide, by decide,
    attach_returns_allocation_outcome Config.plain true 3 5 1 State.init
      (by decide) (by decide)⟩

/-! ## The raw overload -/

/-- C8: on an unreserved source `s`, the raw overload returns `true`, leaves
heap and handler table as they were (no `new`, no `delete`, no store: its
effects are one `HAL_Interrupts_Detach` followed by one
`HAL_Interrupts_Attach`), and arms `s` with `call_raw_interrupt_handler`, the
function `h` as context and the mode `m`; delivering a signal on `s` with the
gate open then calls exactly `h`. -/
theorem raw_attach_bypasses_table (cfg : Config) (s : Nat) (h : RawHandler)
    (m : InterruptMode) (st : State) (hr : reserved cfg s = false) :
    ∃ st' : State,
      attachInterruptRaw cfg s h m st = (true, st') ∧
      st'.heap = st.heap ∧
      st'.handlers = st.handlers ∧
      st'.armed s
        = some { trampoline := Trampoline.call_raw_interrupt_handler, data := h, mode := m } ∧
      newEffects st st'
        = [Effect.halDetach s,
           Effect.halAttach s Trampoline.call_raw_interrupt_handler h m] ∧
      (st.gate = true →
        ∃ st2 : State, fire s st' = Except.ok st2 ∧
          newEffects st' st2 = [Effect.invokeRaw h]) := by
  refine ⟨_, attachInterruptRaw_eq cfg s h m st hr, rfl, rfl, by simp,
    newEffects_append st _ _ rfl, ?_⟩
  intro hg
  exact ⟨_, fire_raw s h m _ hg (by simp), newEffects_append _ _ [Effect.invokeRaw h] rfl⟩

/-- Witness for C8: pin 3 while its slot holds a callback from an earlier
owning attach. -/
theorem raw_attach_bypasses_table_witness :
    reserved Config.plain 3 = false ∧
    ∃ st' : State,
      attachInterruptRaw Config.plain 3 9 2 State.armed3 = (true, st') ∧
      st'.heap = State.armed3.heap ∧
      st'.handlers = State.armed3.handlers ∧
      st'.armed 3
        = some { trampoline := Trampoline.call_raw_interrupt_handler, data := 9, mode := 2 } ∧
      newEffects State.armed3 st'
        = [Effect.halDetach 3,
           Effect.halAttach 3 Trampoline.call_raw_interrupt_handler 9 2] ∧
      (State.armed3.gate = true →
        ∃ st2 : State, fire 3 st' = Except.ok st2 ∧
          newEffects st' st2 = [Effect.invokeRaw 9]) :=
  ⟨by decide, raw_attach_bypasses_table Config.plain 3 9 2 State.armed3 (by decide)⟩

/-! ## Order of effects -/

/-- C9: on an unreserved source `s < 16`, the effects of one successful
`attachInterrupt` are, in this order: `HAL_Interrupts_Detach(s)`, the `delete`
of the old content of slot `s`, the `new`, the store of the new pointer into
slot `s`, and `HAL_Interrupts_Attach(s, ...)` on the new pointer.  Hence after
each of the first four effects `s` is unarmed (whether or not it was armed
before the call), and it is armed only after the fifth. -/
theorem replace_is_detach_swap_attach (cfg : Config) (s : Nat) (cb : Callback)
    (m : InterruptMode) (st : State) (hr : reserved cfg s = false) (hs : s < 16) :
    ∃ st' : State,
      attachInterrupt cfg true s cb m st = Except.ok (true, st') ∧
      newEffects st st'
        = [Effect.halDetach s,
           Effect.opDelete (st.handlers ⟨s, hs⟩),
           Effect.opNew cb (st'.handlers ⟨s, hs⟩),
           Effect.store s (st'.handlers ⟨s, hs⟩),
           Effect.halAttach s Trampoline.call_wiring_interrupt_handler
             (st'.handlers ⟨s, hs⟩) m] ∧
      (∀ (was : Bool) (k : Nat), 1 ≤ k → k ≤ 4 →
        armedAfter s was ((newEffects st st').take k) = false) ∧
      (∀ was : Bool, armedAfter s was (newEffects st st') = true) := by
  refine ⟨_, attachInterrupt_success cfg s cb m st hr hs, ?_, ?_, ?_⟩
  · rw [newEffects_append st _ _ rfl]
    simp
  · intro was k h1 h4
    rw [newEffects_append st _ _ rfl]
    have hk : k = 1 ∨ k = 2 ∨ k = 3 ∨ k = 4 := by omega
    rcases hk with hk | hk | hk | hk <;> subst hk <;> simp [armedAfter]
  · intro was
    rw [newEffects_append st _ _ rfl]
    simp [armedAfter]

/-- Witness for C9: replacing the callback of pin 3 in `State.armed3`. -/
theorem replace_is_detach_swap_attach_witness :
    reserved Config.plain 3 = false ∧ (3 : Nat) < 16 ∧
    ∃ st' : State,
      attachInterrupt Config.plain true 3 6 2 State.armed3 = Except.ok (true, st') ∧
      newEffects State.armed3 st'
        = [Effect.halDetach 3,
           Effect.opDelete (State.armed3.handlers ⟨3, by decide⟩),
           Effect.opNew 6 (st'.handlers ⟨3, by decide⟩),
           Effect.store 3 (st'.handlers ⟨3, by decide⟩),
           Effect.halAttach 3 Trampoline.call_wiring_interrupt_handler
             (st'.handlers ⟨3, by decide⟩) 2] ∧
      (∀ (was : Bool) (k : Nat), 1 ≤ k → k ≤ 4 →
        armedAfter 3 was ((newEffects State.armed3 st').take k) = false) ∧
      (∀ was : Bool, armedAfter 3 was (newEffects State.armed3 st') = true) :=
  ⟨by decide, by decide,
    replace_is_detach_swap_attach Config.plain 3 6 2 State.armed3 (by decide) (by decide)⟩

/-! ## Table bounds -/

/-- C10: for an unreserved pin, the owning `attachInterrupt` and
`detachInterrupt` complete without an out-of-range table access exactly when
`pin < 16`, and otherwise stop with the out-of-range fault on `pin`; when they
complete, every table entry other than `pin` is left as it was and the pointer
they `delete` is the one read from entry `pin`. -/
theorem table_access_in_range_iff (cfg : Config) (allocOk : Bool) (pin : Nat) (fn : Callback)
    (mode : InterruptMode) (st : State) (hr : reserved cfg pin = false) :
    ((∃ r, attachInterrupt cfg allocOk pin fn mode st = Except.ok r) ↔ pin < 16) ∧
    ((∃ st', detachInterrupt cfg pin st = Except.ok st') ↔ pin < 16) ∧
    (¬ pin < 16 →
      attachInterrupt cfg allocOk pin fn mode st
        = Except.error (Fault.tableIndexOutOfRange pin) ∧
      detachInterrupt cfg pin st = Except.error (Fault.tableIndexOutOfRange pin)) ∧
    (∀ (h : pin < 16) (r : Bool) (st' : State),
      attachInterrupt cfg allocOk pin fn mode st = Except.ok (r, st') →
        (∀ j : Fin 16, j ≠ ⟨pin, h⟩ → st'.handlers j = st.handlers j) ∧
        (newEffects st st').filter (fun e => e matches Effect.opDelete _)
          = [Effect.opDelete (st.handlers ⟨pin, h⟩)]) ∧
    (∀ (h : pin < 16) (st' : State),
      detachInterrupt cfg pin st = Except.ok st' →
        (∀ j : Fin 16, j ≠ ⟨pin, h⟩ → st'.handlers j = st.handlers j) ∧
        (newEffects st st').filter (fun e => e matches Effect.opDelete _)
          = [Effect.opDelete (st.handlers ⟨pin, h⟩)]) := by
  have hbad : ¬ pin < 16 →
      attachInterrupt cfg allocOk pin fn mode st
        = Except.error (Fault.tableIndexOutOfRange pin) ∧
      detachInterrupt cfg pin st = Except.error (Fault.tableIndexOutOfRange pin) := by
    intro h
    constructor
    · simp [attachInterrupt, hr, allocate_handler, h]
    · simp [detachInterrupt, hr, h]
  have hatt : ∀ h : pin < 16, ∃ st', attachInterrupt cfg allocOk pin fn mode st
      = Except.ok (allocOk, st') ∧
      (∀ j : Fin 16, j ≠ ⟨pin, h⟩ → st'.handlers j = st.handlers j) ∧
      (newEffects st st').filter (fun e => e matches Effect.opDelete _)
          = [Effect.opDelete (st.handlers ⟨pin, h⟩)] := by
    intro h
    cases allocOk with
    | true =>
      refine ⟨_, attachInterrupt_success cfg pin fn mode st hr h, ?_, ?_⟩
      · intro j hj
        simp [Function.update_noteq hj]
      · rw [newEffects_append st _ _ rfl]
        rfl
    | false =>
      refine ⟨_, attachInterrupt_failure cfg pin fn mode st hr h, ?_, ?_⟩
      · intro j hj
        simp [Function.update_noteq hj]
      · rw [newEffects_append st _ _ rfl]
        rfl
  have hdet : ∀ h : pin < 16, ∃ st', detachInterrupt cfg pin st = Except.ok st' ∧
      (∀ j : Fin 16, j ≠ ⟨pin, h⟩ → st'.handlers j = st.handlers j) ∧
      (newEffects st st').filter (fun e => e matches Effect.opDelete _)
          = [Effect.opDelete (st.handlers ⟨pin, h⟩)] := by
    intro h
    refine ⟨_, detachInterrupt_eq cfg pin st hr h, ?_, ?_⟩
    · intro j hj
      simp [Function.update_noteq hj]
    · rw [newEffects_append st _ _ rfl]
      rfl
  refine ⟨⟨?_, ?_⟩, ⟨?_, ?_⟩, hbad, ?_, ?_⟩
  · rintro ⟨r, hrun⟩
    by_contra h
    rw [(hbad h).1] at hrun
    cases hrun
  · intro h
    obtain ⟨st', h1, -⟩ := hatt h
    exact ⟨_, h1⟩
  · rintro ⟨r, hrun⟩
    by_contra h
    rw [(hbad h).2] at hrun
    cases hrun
  · intro h
    obtain ⟨st', h1, -⟩ := hdet h
    exact ⟨_, h1⟩
  · intro h r st' hrun
    obtain ⟨st1, h1, h2⟩ := hatt h
    rw [h1] at hrun
    simp only [Except.ok.injEq, Prod.mk.injEq] at hrun
    rw [← hrun.2]
    exact h2
  · intro h st' hrun
    obtain ⟨st1, h1, h2⟩ := hdet h
    rw [h1] at hrun
    simp only [Except.ok.injEq] at hrun
    rw [← hrun]
    exact h2

/-- Witness for C10: pin 16 of the plain configuration is not reserved and is
out of range. -/
theorem table_access_in_range_iff_witness :
    reserved Config.plain 16 = false ∧ ¬ (16 : Nat) < 16 ∧
    attachInterrupt Config.plain true 16 5 1 State.init
      = Except.error (Fault.tableIndexOutOfRange 16) ∧
    detachInterrupt Config.plain 16 State.init
      = Except.error (Fault.tableIndexOutOfRange 16) :=
  ⟨by decide, by decide,
    (table_access_in_range_iff Config.plain true 16 5 1 State.init (by decide)).2.2.1
      (by decide)⟩

/-! ## No dangling context -/

theorem fireTimes_unarmed (n pin : Nat) (st : State) (ha : st.armed pin = none) :
    fireTimes n pin st = Except.ok st := by
  induction n with
  | zero => rfl
  | succ n ih => simp [fireTimes, fire_unarmed pin st ha, ih]

theorem detach_unarms {cfg : Config} {st : State} (hinv : Consistent cfg st)
    (s : Nat) (hs : s < 16) :
    ∃ st' : State, detachInterrupt cfg s st = Except.ok st' ∧ st'.armed s = none := by
  cases hr : reserved cfg s with
  | true => exact ⟨st, by simp [detachInterrupt, hr], hinv.reserved_unarmed s hr⟩
  | false => exact ⟨_, detachInterrupt_eq cfg s st hr hs, by simp⟩

/-- C6: every sequence of `attachInterrupt` (either overload),
`detachInterrupt`, `noInterrupts` and `interrupts` calls on sources below 16
runs without fault from the initial state, and in the state it reaches: a pin
armed with `call_wiring_interrupt_handler` and context `p` is below 16 and `p`
is the live object held in its slot; a signal on any pin is delivered without
fault; and after a further `detachInterrupt(s)` the pin `s` is unarmed, so any
number of signals on `s` invoke nothing.  Scenario: attach a callback on
source 3, three signals invoke it three times; after the detach two more
signals are delivered without fault and the count is still three. -/
theorem armed_context_is_live_slot (cfg : Config) (calls : List Call)
    (hc : ∀ c ∈ calls, c.inRange = true) :
    (∃ st : State, run cfg calls State.init = Except.ok st ∧
      (∀ (s : Nat) (p : Ptr) (m : InterruptMode),
        st.armed s
          = some { trampoline := Trampoline.call_wiring_interrupt_handler,
                   data := p, mode := m } →
        ∃ h : s < 16, st.handlers ⟨s, h⟩ = p ∧ isLive st.heap p = true) ∧
      (∀ s : Nat, ∃ st' : State, fire s st = Except.ok st') ∧
      (∀ s : Nat, s < 16 →
        ∃ st' : State, detachInterrupt cfg s st = Except.ok st' ∧ st'.armed s = none ∧
          ∀ n : Nat, fireTimes n s st' = Except.ok st')) ∧
    (∃ st1 st2 st3 st4 : State,
      attachInterrupt Config.plain true 3 5 1 State.init = Except.ok (true, st1) ∧
      fireTimes 3 3 st1 = Except.ok st2 ∧
      invocations 5 st2 = 3 ∧
      detachInterrupt Config.plain 3 st2 = Except.ok st3 ∧
      fireTimes 2 3 st3 = Except.ok st4 ∧
      invocations 5 st4 = 3) := by
  constructor
  · obtain ⟨st, hrun, hinv⟩ := run_consistent cfg calls State.init hc (consistent_init cfg)
    refine ⟨st, hrun, ?_, fun s => fire_consistent hinv s, ?_⟩
    · intro s p m ha
      obtain ⟨h, heq, hp⟩ := hinv.armed_slot s p m ha
      refine ⟨h, heq, ?_⟩
      obtain ⟨c, hcell, hl⟩ := hinv.slot_live ⟨s, h⟩ (by rw [heq]; exact hp)
      rw [heq] at hcell
      simp [isLive, hcell, hl]
    · intro s hs
      obtain ⟨st', hdet, hun⟩ := detach_unarms hinv s hs
      exact ⟨st', hdet, hun, fun n => fireTimes_unarmed n s st' hun⟩
  · exact ⟨_, _, _, _, rfl, rfl, rfl, rfl, rfl, rfl⟩

/-- Witness for C6: a sequence in the cellular configuration that attaches,
toggles the gate, rebinds with the raw overload and detaches. -/
theorem armed_context_is_live_slot_witness :
    (∀ c ∈ [Call.attach true 3 5 1, Call.noInterrupts, Call.interrupts,
        Call.attachRaw 4 9 2, Call.attach true 7 6 1, Call.detach 3], c.inRange = true) ∧
    ∃ st : State,
      run Config.cellular
        [Call.attach true 3 5 1, Call.noInterrupts, Call.interrupts,
          Call.attachRaw 4 9 2, Call.attach true 7 6 1, Call.detach 3] State.init
        = Except.ok st ∧
      (∀ (s : Nat) (p : Ptr) (m : InterruptMode),
        st.armed s
          = some { trampoline := Trampoline.call_wiring_interrupt_handler,
                   data := p, mode := m } →
        ∃ h : s < 16, st.handlers ⟨s, h⟩ = p ∧ isLive st.heap p = true) ∧
      (∀ s : Nat, ∃ st' : State, fire s st = Except.ok st') ∧
      (∀ s : Nat, s < 16 →
        ∃ st' : State, detachInterrupt Config.cellular s st = Except.ok st' ∧
          st'.armed s = none ∧ ∀ n : Nat, fireTimes n s st' = Except.ok st') :=
  ⟨by decide,
    (armed_context_is_live_slot Config.cellular
      [Call.attach true 3 5 1, Call.noInterrupts, Call.interrupts,
        Call.attachRaw 4 9 2, Call.attach true 7 6 1, Call.detach 3] (by decide)).1⟩

/-! ## System interrupts -/

/-- C7, evaluated: neither `attachSystemInterrupt` nor `detachSystemInterrupt`
ever runs `delete`: the first only appends the new object to the heap, the
second leaves the heap as it is.  From the initial state, attaching callback 5
and then callback 6 on line 0 leaves two live objects, the copy of 5 among
them, and detaching line 0 afterwards still leaves both live. -/
theorem system_attach_never_releases :
    (∀ (allocOk : Bool) (irq : Nat) (cb : Callback) (st : State),
      (attachSystemInterrupt allocOk irq cb st).2.heap
        = st.heap ++ (if allocOk then [{ fn := cb, destroyed := 0 }] else [])) ∧
    (∀ (irq : Nat) (st : State), (detachSystemInterrupt irq st).2.heap = st.heap) ∧
    (attachSystemInterrupt true 0 6 (attachSystemInterrupt true 0 5 State.init).2).2.heap
      = [{ fn := 5, destroyed := 0 }, { fn := 6, destroyed := 0 }] ∧
    (attachSystemInterrupt true 0 6 (attachSystemInterrupt true 0 5 State.init).2).2.system 0
      = some { handler := Trampoline.call_wiring_interrupt_handler, data := 2 } ∧
    liveCount
      (attachSystemInterrupt true 0 6 (attachSystemInterrupt true 0 5 State.init).2).2.heap
      = 2 ∧
    (detachSystemInterrupt 0
      (attachSystemInterrupt true 0 6 (attachSystemInterrupt true 0 5 State.init).2).2).2.system 0
      = none ∧
    liveCount
      (detachSystemInterrupt 0
        (attachSystemInterrupt true 0 6 (attachSystemInterrupt true 0 5 State.init).2).2).2.heap
      = 2 := by
  refine ⟨?_, ?_, ?_, ?_, ?_, ?_, ?_⟩
  · intro allocOk irq cb st
    cases allocOk <;>
      simp [attachSystemInterrupt, HAL_Set_System_Interrupt_Handler, opNew]
  · intro irq st
    simp [detachSystemInterrupt, HAL_Set_System_Interrupt_Handler]
  · rfl
  · simp [attachSystemInterrupt, HAL_Set_System_Interrupt_Handler, opNew, State.init]
  · rfl
  · simp [detachSystemInterrupt, HAL_Set_System_Interrupt_Handler]
  · rfl

end WiringInterrupts
